import Mathlib

/-
Verification development for the ScreenMe screenshot display surface
(src/src/screenshotdisplay.cpp).  The widget state and its event handlers
are embedded shallowly: Qt integer geometry (QPoint, QSize, QRect with the
historical x2 = x + w - 1 convention, Qt 6 normalized/contains semantics),
the display widget as a record of its member variables, and each mouse/key
handler as a state-transition function.  QPainter raster primitives are
kept abstract (a record of functions), since their pixel output is not part
of this repository; everything that the handlers decide (which primitive is
invoked, where, with which color/width, and in which order) is explicit.
-/

namespace ScreenMe

/-- Qt integer point (QPoint). -/
structure QPoint where
  x : Int
  y : Int
deriving DecidableEq, Repr

instance : Add QPoint := ⟨fun a b => ⟨a.x + b.x, a.y + b.y⟩⟩

instance : Sub QPoint := ⟨fun a b => ⟨a.x - b.x, a.y - b.y⟩⟩

/-- Qt integer size (QSize). -/
structure QSize where
  w : Int
  h : Int
deriving DecidableEq, Repr

/-- Default-constructed QSize(): an invalid size with width = height = -1. -/
def QSize.defaultSize : QSize := ⟨-1, -1⟩

/-- Qt integer rectangle (QRect), stored as its two included corners,
with width = x2 - x1 + 1 and height = y2 - y1 + 1. -/
structure QRect where
  x1 : Int
  y1 : Int
  x2 : Int
  y2 : Int
deriving DecidableEq, Repr

namespace QRect

/-- QRect(topLeft, bottomRight). -/
def mk2 (tl br : QPoint) : QRect := ⟨tl.x, tl.y, br.x, br.y⟩

/-- QRect(topLeft, size): x2 = x + w - 1, y2 = y + h - 1. -/
def mkPS (tl : QPoint) (s : QSize) : QRect :=
  ⟨tl.x, tl.y, tl.x + s.w - 1, tl.y + s.h - 1⟩

def width (r : QRect) : Int := r.x2 - r.x1 + 1

def height (r : QRect) : Int := r.y2 - r.y1 + 1

def topLeft (r : QRect) : QPoint := ⟨r.x1, r.y1⟩

def topRight (r : QRect) : QPoint := ⟨r.x2, r.y1⟩

def bottomLeft (r : QRect) : QPoint := ⟨r.x1, r.y2⟩

def bottomRight (r : QRect) : QPoint := ⟨r.x2, r.y2⟩

/-- QRect::isValid(): x1 ≤ x2 and y1 ≤ y2. -/
def isValid (r : QRect) : Bool := decide (r.x1 ≤ r.x2) && decide (r.y1 ≤ r.y2)

/-- QRect::translated(p). -/
def translated (r : QRect) (p : QPoint) : QRect :=
  ⟨r.x1 + p.x, r.y1 + p.y, r.x2 + p.x, r.y2 + p.y⟩

/-- QRect::contains(p) (non-proper), Qt 6 semantics: the coordinate ranges
are put in order first when the stored corners are swapped. -/
def contains (r : QRect) (p : QPoint) : Bool :=
  let l := if r.x2 < r.x1 then r.x2 + 1 else r.x1
  let rr := if r.x2 < r.x1 then r.x1 - 1 else r.x2
  let t := if r.y2 < r.y1 then r.y2 + 1 else r.y1
  let b := if r.y2 < r.y1 then r.y1 - 1 else r.y2
  decide (l ≤ p.x) && decide (p.x ≤ rr) && decide (t ≤ p.y) && decide (p.y ≤ b)

/-- QRect::normalized(), Qt 6 semantics: swaps bad corner pairs, keeping
the magnitude of the width/height. -/
def normalized (r : QRect) : QRect :=
  let nx1 := if r.x2 < r.x1 then r.x2 + 1 else r.x1
  let nx2 := if r.x2 < r.x1 then r.x1 - 1 else r.x2
  let ny1 := if r.y2 < r.y1 then r.y2 + 1 else r.y1
  let ny2 := if r.y2 < r.y1 then r.y1 - 1 else r.y2
  ⟨nx1, ny1, nx2, ny2⟩

def setTopLeft (r : QRect) (p : QPoint) : QRect := { r with x1 := p.x, y1 := p.y }

def setTopRight (r : QRect) (p : QPoint) : QRect := { r with x2 := p.x, y1 := p.y }

def setBottomLeft (r : QRect) (p : QPoint) : QRect := { r with x1 := p.x, y2 := p.y }

def setBottomRight (r : QRect) (p : QPoint) : QRect := { r with x2 := p.x, y2 := p.y }

def setTop (r : QRect) (v : Int) : QRect := { r with y1 := v }

def setBottom (r : QRect) (v : Int) : QRect := { r with y2 := v }

def setLeft (r : QRect) (v : Int) : QRect := { r with x1 := v }

def setRight (r : QRect) (v : Int) : QRect := { r with x2 := v }

/-- QRect::moveTopLeft(p): translates the rectangle, preserving its size. -/
def moveTopLeft (r : QRect) (p : QPoint) : QRect :=
  ⟨p.x, p.y, p.x + (r.x2 - r.x1), p.y + (r.y2 - r.y1)⟩

end QRect

/-- Editor::Tool (the toolbar's tool enumeration). -/
inductive Tool where
  | none
  | pen
  | rectangle
  | ellipse
  | line
  | arrow
  | text
deriving DecidableEq, Repr

/-- ScreenshotDisplay::HandlePosition. -/
inductive HandlePosition where
  | topLeft
  | topRight
  | bottomLeft
  | bottomRight
  | top
  | bottom
  | left
  | right
  | none
deriving DecidableEq, Repr

/-- ScreenshotDisplay::handleAtPoint: tests a 20x20 square translated so
that its TOP-LEFT corner sits at each handle position, in the fixed order
TopLeft, TopRight, BottomLeft, BottomRight, Top, Bottom, Left, Right;
the first region containing the point wins.  Edge-midpoint handle
positions use C++ truncating integer division (width/2, height/2). -/
def handleAtPoint (selectionRect : QRect) (point : QPoint) : HandlePosition :=
  let handleSize : Int := 20
  let handleRect : QRect := QRect.mkPS ⟨0, 0⟩ ⟨handleSize, handleSize⟩
  if (handleRect.translated selectionRect.topLeft).contains point then .topLeft
  else if (handleRect.translated selectionRect.topRight).contains point then .topRight
  else if (handleRect.translated selectionRect.bottomLeft).contains point then .bottomLeft
  else if (handleRect.translated selectionRect.bottomRight).contains point then .bottomRight
  else if (handleRect.translated (selectionRect.topLeft + ⟨Int.tdiv selectionRect.width 2, 0⟩)).contains point then .top
  else if (handleRect.translated (selectionRect.bottomLeft + ⟨Int.tdiv selectionRect.width 2, 0⟩)).contains point then .bottom
  else if (handleRect.translated (selectionRect.topLeft + ⟨0, Int.tdiv selectionRect.height 2⟩)).contains point then .left
  else if (handleRect.translated (selectionRect.topRight + ⟨0, Int.tdiv selectionRect.height 2⟩)).contains point then .right
  else .none

/-- ScreenshotDisplay::resizeSelection: applies the handle-specific
edge/corner update, then re-normalizes. -/
def resizeSelection (currentHandle : HandlePosition) (selectionRect : QRect) (point : QPoint) : QRect :=
  (match currentHandle with
   | .topLeft => selectionRect.setTopLeft point
   | .topRight => selectionRect.setTopRight point
   | .bottomLeft => selectionRect.setBottomLeft point
   | .bottomRight => selectionRect.setBottomRight point
   | .top => selectionRect.setTop point.y
   | .bottom => selectionRect.setBottom point.y
   | .left => selectionRect.setLeft point.x
   | .right => selectionRect.setRight point.x
   | .none => selectionRect).normalized

/-- The drag-create update performed on every mouse move while
selectionStarted: selectionRect = QRect(origin, pos).normalized(). -/
def dragUpdateSelection (origin pos : QPoint) : QRect :=
  (QRect.mk2 origin pos).normalized

/-- A pixmap: a pixel grid of the given dimensions.  The pixel payload
type is kept generic. -/
structure Pixmap (C : Type) where
  w : Int
  h : Int
  pix : Int → Int → C

/-- QPainter::drawPixmap(0, 0, overlay) on a base pixmap: inside the
overlay bounds the overlay pixel is composed over the base pixel by the
blend operation, elsewhere the base is untouched. -/
def compositeAt00 {C : Type} (blend : C → C → C) (base overlay : Pixmap C) : Pixmap C :=
  { w := base.w, h := base.h,
    pix := fun x y =>
      if 0 ≤ x ∧ x < overlay.w ∧ 0 ≤ y ∧ y < overlay.h then
        blend (overlay.pix x y) (base.pix x y)
      else base.pix x y }

/-- QPixmap::copy(rect): a pixmap of the rectangle's size whose pixel
(x, y) is the source pixel at (rect.x1 + x, rect.y1 + y); areas outside
the source are filled with the fill color. -/
def pixmapCopy {C : Type} (fill : C) (src : Pixmap C) (r : QRect) : Pixmap C :=
  { w := r.width, h := r.height,
    pix := fun x y =>
      if 0 ≤ r.x1 + x ∧ r.x1 + x < src.w ∧ 0 ≤ r.y1 + y ∧ r.y1 + y < src.h then
        src.pix (r.x1 + x) (r.y1 + y)
      else fill }

/-- A font together with its QFontMetrics-derived ascent and line height
(each QFont determines these; they are carried as data here). -/
structure Font where
  ascent : Int
  height : Int
deriving DecidableEq, Repr

/-- The transient QTextEdit session: its font and its accumulated plain
text. -/
structure TextState where
  font : Font
  content : String
deriving DecidableEq, Repr

/-- Abstract QPainter raster primitives.  Their pixel effect is outside
this repository (Qt); the handlers below record exactly which primitive
is applied, with which pen color/width, at which geometry, in which
order. -/
structure Raster (C : Type) where
  drawLine : C → Int → QPoint → QPoint → Pixmap C → Pixmap C
  drawRect : C → Int → QRect → Pixmap C → Pixmap C
  drawEllipse : C → Int → QRect → Pixmap C → Pixmap C
  drawArrowOp : C → Int → QPoint → QPoint → Pixmap C → Pixmap C
  drawTextLine : Font → C → QPoint → String → Pixmap C → Pixmap C

/-- The ScreenshotDisplay widget state: its member variables.  The unused
legacy members (text, textBoundingRect, drawingPath, cursorPosition) are
omitted; isClosed records whether close() has been called. -/
structure Display (C : Type) where
  originalPixmap : Pixmap C
  drawingPixmap : Pixmap C
  undoStack : List (Pixmap C)
  selectionRect : QRect
  selectionStarted : Bool
  movingSelection : Bool
  currentHandle : HandlePosition
  drawing : Bool
  shapeDrawing : Bool
  currentShapeRect : QRect
  origin : QPoint
  lastPoint : QPoint
  drawingEnd : QPoint
  selectionOffset : QPoint
  handleOffset : QPoint
  currentTool : Tool
  currentColor : C
  borderWidth : Int
  currentFont : Font
  textEdit : Option TextState
  textEditPosition : QPoint
  isClosed : Bool

/-- ScreenshotDisplay::saveStateForUndo: pushes a copy of the current
annotation layer onto the undo stack (stack top = list head). -/
def saveStateForUndo {C : Type} (s : Display C) : Display C :=
  { s with undoStack := s.drawingPixmap :: s.undoStack }

/-- ScreenshotDisplay::undo: if the stack is non-empty, replaces the
annotation layer by the top snapshot and pops; otherwise does nothing. -/
def undo {C : Type} (s : Display C) : Display C :=
  match s.undoStack with
  | [] => s
  | top :: rest => { s with drawingPixmap := top, undoStack := rest }

/-- The rasterization loop of finalizeTextEdit: draws each line at the
current position, then advances the y coordinate by the font height. -/
def rasterizeLines {C : Type} (rz : Raster C) (f : Font) (col : C) :
    List String → QPoint → Pixmap C → Pixmap C
  | [], _, px => px
  | line :: rest, pos, px =>
      rasterizeLines rz f col rest ⟨pos.x, pos.y + f.height⟩
        (rz.drawTextLine f col pos line px)

/-- ScreenshotDisplay::finalizeTextEdit: if a session is open, pushes an
undo snapshot, splits the session text into lines, rasterizes them
starting at the anchor with the first baseline at anchor.y + ascent and
advancing by the font height per line, using the session font and the
current color, then destroys the session. -/
def finalizeTextEdit {C : Type} (rz : Raster C) (s : Display C) : Display C :=
  match s.textEdit with
  | none => s
  | some te =>
      let s1 := saveStateForUndo s
      let lines := te.content.splitOn "\n"
      let startPos : QPoint := ⟨s1.textEditPosition.x, s1.textEditPosition.y + te.font.ascent⟩
      { s1 with
        drawingPixmap := rasterizeLines rz te.font s1.currentColor lines startPos s1.drawingPixmap,
        textEdit := none }

/-- ScreenshotDisplay::mousePressEvent. -/
def mousePressEvent {C : Type} (rz : Raster C) (s : Display C) (pos : QPoint) : Display C :=
  if s.currentTool = Tool.none then
    let handle := handleAtPoint s.selectionRect pos
    if handle ≠ HandlePosition.none then
      { s with currentHandle := handle, handleOffset := pos - s.selectionRect.topLeft }
    else if s.selectionRect.contains pos then
      { s with movingSelection := true, selectionOffset := pos - s.selectionRect.topLeft }
    else
      { s with selectionStarted := true, origin := pos,
               selectionRect := QRect.mkPS pos QSize.defaultSize,
               currentHandle := HandlePosition.none, movingSelection := false }
  else if s.currentTool = Tool.text then
    match s.textEdit with
    | none =>
        { s with textEdit := some { font := s.currentFont, content := "" },
                 textEditPosition := pos }
    | some _ => finalizeTextEdit rz s
  else
    let s1 := saveStateForUndo s
    let s2 := { s1 with drawing := true, lastPoint := pos, origin := pos }
    if s2.currentTool ≠ Tool.pen then
      { s2 with shapeDrawing := true, currentShapeRect := QRect.mkPS pos QSize.defaultSize }
    else s2

/-- ScreenshotDisplay::mouseMoveEvent (the state-mutating branches; the
editor-toolbar repositioning and cursor-shape updates carry no modeled
state). -/
def mouseMoveEvent {C : Type} (rz : Raster C) (s : Display C) (pos : QPoint) : Display C :=
  if s.selectionStarted then
    { s with selectionRect := dragUpdateSelection s.origin pos }
  else if s.drawing ∧ s.currentTool = Tool.pen then
    { s with drawingPixmap := rz.drawLine s.currentColor s.borderWidth s.lastPoint pos s.drawingPixmap,
             lastPoint := pos }
  else if s.shapeDrawing then
    { s with currentShapeRect := (QRect.mk2 s.lastPoint pos).normalized,
             drawingEnd := pos }
  else if s.movingSelection then
    { s with selectionRect := s.selectionRect.moveTopLeft (pos - s.selectionOffset) }
  else s

/-- ScreenshotDisplay::mouseReleaseEvent (the release position is unused
by the handler). -/
def mouseReleaseEvent {C : Type} (rz : Raster C) (s : Display C) (_pos : QPoint) : Display C :=
  let s1 := { s with selectionStarted := false, movingSelection := false,
                     currentHandle := HandlePosition.none, drawing := false }
  if s1.shapeDrawing then
    let s2 := saveStateForUndo s1
    let px :=
      match s2.currentTool with
      | Tool.rectangle => rz.drawRect s2.currentColor s2.borderWidth s2.currentShapeRect s2.drawingPixmap
      | Tool.ellipse => rz.drawEllipse s2.currentColor s2.borderWidth s2.currentShapeRect s2.drawingPixmap
      | Tool.line => rz.drawLine s2.currentColor s2.borderWidth s2.lastPoint s2.drawingEnd s2.drawingPixmap
      | Tool.arrow => rz.drawArrowOp s2.currentColor s2.borderWidth s2.lastPoint s2.drawingEnd s2.drawingPixmap
      | _ => s2.drawingPixmap
    { s2 with drawingPixmap := px, shapeDrawing := false }
  else s1

/-- One full draw gesture: pointer-down, the list of pointer moves, then
pointer-up. -/
def runGesture {C : Type} (rz : Raster C) (s : Display C) (p0 : QPoint)
    (ps : List QPoint) (pe : QPoint) : Display C :=
  mouseReleaseEvent rz (ps.foldl (mouseMoveEvent rz) (mousePressEvent rz s p0)) pe

/-- ScreenshotDisplay::keyPressEvent, Escape key branch. -/
def keyPressEscape {C : Type} (rz : Raster C) (s : Display C) : Display C :=
  if s.currentTool ≠ Tool.none then
    if s.currentTool = Tool.text ∧ s.textEdit ≠ none then finalizeTextEdit rz s
    else { s with currentTool := Tool.none }
  else { s with isClosed := true }

/-- ScreenshotDisplay::onSaveRequested, after the file dialog returned
the given path: a non-empty path saves the ORIGINAL pixmap (not the
composite) to it and closes; an empty path does nothing. -/
def onSaveRequested {C : Type} (s : Display C) (filePath : String) :
    Display C × Option (String × Pixmap C) :=
  if filePath ≠ "" then ({ s with isClosed := true }, some (filePath, s.originalPixmap))
  else (s, none)

/-- ScreenshotDisplay::copySelectionToClipboard: composites the annotation
layer over the original, crops to the selection rectangle when it is
valid, places the result on the clipboard (second component), and
closes. -/
def copySelectionToClipboard {C : Type} (blend : C → C → C) (fill : C) (s : Display C) :
    Display C × Pixmap C :=
  let result := compositeAt00 blend s.originalPixmap s.drawingPixmap
  if s.selectionRect.isValid then
    ({ s with isClosed := true }, pixmapCopy fill result s.selectionRect)
  else
    ({ s with isClosed := true }, result)

/-- ScreenshotDisplay::paintEvent draws the selection outline and handles
only under the guard selectionRect.isValid(). -/
def selectionDecorDrawn {C : Type} (s : Display C) : Bool := s.selectionRect.isValid

/-- Gesture classification of a mouse press while no tool is active,
exactly as mousePressEvent does it: first the handle hit-test, then the
containment test, else a new selection. -/
inductive PressKind where
  | resize (h : HandlePosition)
  | move
  | newSelection
deriving DecidableEq, Repr

def classifyPress (selectionRect : QRect) (p : QPoint) : PressKind :=
  let handle := handleAtPoint selectionRect p
  if handle ≠ HandlePosition.none then .resize handle
  else if selectionRect.contains p then .move
  else .newSelection

/-- The eight handles in the hit-test priority order of the spec and the
code. -/
def handleOrder : List HandlePosition :=
  [.topLeft, .topRight, .bottomLeft, .bottomRight, .top, .bottom, .left, .right]

/-- The handle positions derived from the selection rectangle (corners
and edge midpoints, with C++ truncating division for the midpoints). -/
def handlePos (r : QRect) : HandlePosition → QPoint
  | .topLeft => r.topLeft
  | .topRight => r.topRight
  | .bottomLeft => r.bottomLeft
  | .bottomRight => r.bottomRight
  | .top => r.topLeft + ⟨Int.tdiv r.width 2, 0⟩
  | .bottom => r.bottomLeft + ⟨Int.tdiv r.width 2, 0⟩
  | .left => r.topLeft + ⟨0, Int.tdiv r.height 2⟩
  | .right => r.topRight + ⟨0, Int.tdiv r.height 2⟩
  | .none => ⟨0, 0⟩

/-- A 20-unit square whose top-left corner is AT the handle position (the
region the code actually tests). -/
def anchoredRegion (c : QPoint) : QRect := QRect.mkPS c ⟨20, 20⟩

/-- A 20-unit square CENTERED on the handle position (the region the
claim describes). -/
def centeredRegion (c : QPoint) : QRect := QRect.mkPS (c + ⟨-10, -10⟩) ⟨20, 20⟩

/-- First-match hit-test over the eight handle regions in priority order,
parameterized by the region shape. -/
def hitTestFirstMatch (region : QPoint → QRect) (r : QRect) (p : QPoint) : HandlePosition :=
  (handleOrder.find? (fun h => (region (handlePos r h)).contains p)).getD .none

/-- Press classification as the spec words it, parameterized by the
handle region shape. -/
def classifySpec (region : QPoint → QRect) (r : QRect) (p : QPoint) : PressKind :=
  let handle := hitTestFirstMatch region r p
  if handle ≠ HandlePosition.none then .resize handle
  else if r.contains p then .move
  else .newSelection

/-- The draw positions produced by the finalizeTextEdit loop: one command
per line, starting at the given point and advancing y by the line height
after each line. -/
def linePositions (p : QPoint) (lineHeight : Int) : List String → List (QPoint × String)
  | [] => []
  | l :: rest => (p, l) :: linePositions ⟨p.x, p.y + lineHeight⟩ lineHeight rest

/-- std::atan2(y, x), idealized over the reals as the argument of the
complex number x + y i (range (-pi, pi], atan2(0, 0) = 0). -/
noncomputable def atan2 (y x : ℝ) : ℝ := Complex.arg ⟨x, y⟩

/-- The two arrowhead wing points computed by ScreenshotDisplay::drawArrow
(lines 441-449), idealized over the reals: angle = atan2 of (start - end),
head length = 2 x borderWidth, head half-angle = pi/6; each wing is the
endpoint offset by the head length in the direction angle ± half-angle.
(The source then truncates each coordinate to int when building the
QPoint; the claim concerns this real-valued geometry.) -/
noncomputable def drawArrowWings (startP endP : QPoint) (borderWidth : Int) :
    (ℝ × ℝ) × (ℝ × ℝ) :=
  let angle : ℝ := atan2 ((startP.y : ℝ) - (endP.y : ℝ)) ((startP.x : ℝ) - (endP.x : ℝ))
  let arrowHeadLength : ℝ := (borderWidth : ℝ) * 2
  let arrowHeadAngle : ℝ := Real.pi / 6
  (((endP.x : ℝ) + Real.cos (angle + arrowHeadAngle) * arrowHeadLength,
    (endP.y : ℝ) + Real.sin (angle + arrowHeadAngle) * arrowHeadLength),
   ((endP.x : ℝ) + Real.cos (angle - arrowHeadAngle) * arrowHeadLength,
    (endP.y : ℝ) + Real.sin (angle - arrowHeadAngle) * arrowHeadLength))

/-- Euclidean distance on the real plane. -/
noncomputable def dist2 (a b : ℝ × ℝ) : ℝ :=
  Real.sqrt ((a.1 - b.1) ^ 2 + (a.2 - b.2) ^ 2)

/-- A concrete 100x100 pixmap over Nat pixels, for witnesses. -/
def pxN : Pixmap Nat := ⟨100, 100, fun _ _ => 0⟩

/-- A concrete raster instance over Nat pixels (identity effects), for
witnesses. -/
def rzN : Raster Nat :=
  ⟨fun _ _ _ _ px => px, fun _ _ _ px => px, fun _ _ _ px => px,
   fun _ _ _ _ px => px, fun _ _ _ _ px => px⟩

/-- A concrete font, for witnesses. -/
def fontN : Font := ⟨12, 16⟩

/-- A concrete widget state right after construction: null selection
rectangle (0, 0, -1, -1), no tool, border width 5, no text session. -/
def baseDisplay : Display Nat where
  originalPixmap := pxN
  drawingPixmap := pxN
  undoStack := []
  selectionRect := ⟨0, 0, -1, -1⟩
  selectionStarted := false
  movingSelection := false
  currentHandle := .none
  drawing := false
  shapeDrawing := false
  currentShapeRect := ⟨0, 0, -1, -1⟩
  origin := ⟨0, 0⟩
  lastPoint := ⟨0, 0⟩
  drawingEnd := ⟨0, 0⟩
  selectionOffset := ⟨0, 0⟩
  handleOffset := ⟨0, 0⟩
  currentTool := .none
  currentColor := 1
  borderWidth := 5
  currentFont := fontN
  textEdit := none
  textEditPosition := ⟨0, 0⟩
  isClosed := false

/-- baseDisplay with an established 101x101 selection. -/
def dispSel : Display Nat := { baseDisplay with selectionRect := ⟨0, 0, 100, 100⟩ }

/-- baseDisplay with the pen tool active. -/
def dispPen : Display Nat := { baseDisplay with currentTool := .pen }

/-- baseDisplay with the rectangle tool active. -/
def dispRect : Display Nat := { baseDisplay with currentTool := .rectangle }

/-- baseDisplay with the selection dragged from (10,10) to (60,40): the
stored rectangle keeps both corners, so its Qt size is 51x31. -/
def dispCopy : Display Nat := { baseDisplay with selectionRect := ⟨10, 10, 60, 40⟩ }

/-- baseDisplay with the text tool active and an open session "Hi"
anchored at (50, 50). -/
def dispText : Display Nat :=
  { baseDisplay with currentTool := .text,
                     textEdit := some ⟨fontN, "Hi"⟩,
                     textEditPosition := ⟨50, 50⟩ }

/-- baseDisplay with a degenerate (zero-size) selection rectangle at
(3, 4). -/
def dispZero : Display Nat := { baseDisplay with selectionRect := ⟨3, 4, 2, 3⟩ }

/-- Translating the origin-anchored handle square so that its top-left
corner lands on c equals building the square directly at c. -/
theorem translated_mkPS_zero (c : QPoint) (s : QSize) :
    (QRect.mkPS ⟨0, 0⟩ s).translated c = QRect.mkPS c s := by
  simp only [QRect.mkPS, QRect.translated, QRect.mk.injEq]
  omega

/-- QRect::normalized always yields non-negative width and height. -/
theorem normalized_size_nonneg (r : QRect) :
    0 ≤ r.normalized.width ∧ 0 ≤ r.normalized.height := by
  simp only [QRect.normalized, QRect.width, QRect.height]
  split_ifs <;> omega

/-- Claim C7 (amended): every drag-create update and every resize leaves
the selection rectangle normalized (non-negative width and height), and
moving the selection preserves its exact size (hence normalization); but
the pointer-down that begins a new selection stores
QRect(origin, QSize()), whose width and height are -1, so the rectangle
is not normalized until the first drag update replaces it. -/
theorem selection_normalized_amended :
    (∀ o p : QPoint,
       0 ≤ (dragUpdateSelection o p).width ∧ 0 ≤ (dragUpdateSelection o p).height) ∧
    (∀ (h : HandlePosition) (r : QRect) (p : QPoint),
       0 ≤ (resizeSelection h r p).width ∧ 0 ≤ (resizeSelection h r p).height) ∧
    (∀ (r : QRect) (p : QPoint),
       (r.moveTopLeft p).width = r.width ∧ (r.moveTopLeft p).height = r.height) ∧
    (∀ p : QPoint, (QRect.mkPS p QSize.defaultSize).width = -1 ∧
       (QRect.mkPS p QSize.defaultSize).height = -1) := by
  refine ⟨fun o p => ?_, fun h r p => ?_, fun r p => ?_, fun p => ?_⟩
  · exact normalized_size_nonneg _
  · exact normalized_size_nonneg _
  · simp only [QRect.moveTopLeft, QRect.width, QRect.height]
    omega
  · simp only [QRect.mkPS, QSize.defaultSize, QRect.width, QRect.height]
    omega

/-- Claim C7 counterexample: a mouse press at (100, 100) on the initial
state (no tool, no prior selection) is the drag-create mutation that
starts a new selection, and it leaves the selection rectangle with
width -1 — not normalized. -/
theorem selection_normalized_counterexample :
    (mousePressEvent rzN baseDisplay ⟨100, 100⟩).selectionStarted = true ∧
    (mousePressEvent rzN baseDisplay ⟨100, 100⟩).selectionRect.width = -1 ∧
    ¬ 0 ≤ (mousePressEvent rzN baseDisplay ⟨100, 100⟩).selectionRect.width := by
  refine ⟨by decide, by decide, by decide⟩

/-- Claim C9 counterexample: for the zero-size selection rectangle at
(0, 0) (stored corners (0,0) and (-1,-1)), the hit-test at point (5, 5)
returns TopLeft, not "no handle": hit-testing does not treat the
degenerate rectangle as invalid. -/
theorem degenerate_selection_counterexample :
    QRect.width ⟨0, 0, -1, -1⟩ = 0 ∧ QRect.height ⟨0, 0, -1, -1⟩ = 0 ∧
    handleAtPoint ⟨0, 0, -1, -1⟩ ⟨5, 5⟩ = HandlePosition.topLeft := by
  refine ⟨by decide, by decide, by decide⟩

/-- Claim C9 (amended): a zero-size selection rectangle is invalid, so
the selection outline and handles are not drawn, and no point lies
inside it (so a press never classifies as a move); but the handle
hit-test ignores validity: the 20-unit square regions are still tested,
and in particular the rectangle's own top-left corner still yields the
TopLeft handle. -/
theorem degenerate_selection_amended {C : Type} (s : Display C)
    (hw : s.selectionRect.width = 0) (hh : s.selectionRect.height = 0) :
    selectionDecorDrawn s = false ∧
    (∀ p : QPoint, s.selectionRect.contains p = false) ∧
    handleAtPoint s.selectionRect s.selectionRect.topLeft = HandlePosition.topLeft := by
  have hx : s.selectionRect.x2 = s.selectionRect.x1 - 1 := by
    simp only [QRect.width] at hw; omega
  have hy : s.selectionRect.y2 = s.selectionRect.y1 - 1 := by
    simp only [QRect.height] at hh; omega
  refine ⟨?_, ?_, ?_⟩
  · simp only [selectionDecorDrawn, QRect.isValid, hx]
    simp only [Bool.and_eq_false_iff, decide_eq_false_iff_not]
    omega
  · intro p
    simp only [QRect.contains]
    split_ifs <;> simp only [Bool.and_eq_false_iff, decide_eq_false_iff_not] <;> omega
  · have hc : ((QRect.mkPS ⟨0, 0⟩ ⟨20, 20⟩).translated s.selectionRect.topLeft).contains
        s.selectionRect.topLeft = true := by
      simp only [QRect.mkPS, QRect.translated, QRect.contains, QRect.topLeft]
      split_ifs <;> simp only [Bool.and_eq_true, decide_eq_true_eq] <;> omega
    simp only [handleAtPoint, hc, if_true]

/-- Claim C9 witness: the amended statement at the concrete degenerate
selection rectangle with corners (3,4) and (2,3). -/
theorem degenerate_selection_witness :
    QRect.width dispZero.selectionRect = 0 ∧ QRect.height dispZero.selectionRect = 0 ∧
    selectionDecorDrawn dispZero = false ∧
    handleAtPoint dispZero.selectionRect dispZero.selectionRect.topLeft = HandlePosition.topLeft :=
  ⟨by decide, by decide, (degenerate_selection_amended dispZero (by decide) (by decide)).1,
   (degenerate_selection_amended dispZero (by decide) (by decide)).2.2⟩

/-- The code's hit-test equals the first-match hit-test over the
TOP-LEFT-anchored 20-unit squares in priority order. -/
theorem handleAtPoint_eq_firstMatch (r : QRect) (p : QPoint) :
    handleAtPoint r p = hitTestFirstMatch anchoredRegion r p := by
  simp only [handleAtPoint, hitTestFirstMatch, handleOrder, handlePos, anchoredRegion,
    translated_mkPS_zero, List.find?]
  split_ifs <;> simp_all

/-- Claim C1 (amended): the press gesture is classified by testing a
fixed 20-unit square whose TOP-LEFT corner sits at each handle position
(not a square centered on it), in the order TopLeft, TopRight,
BottomLeft, BottomRight, Top, Bottom, Left, Right, first match winning;
if no handle region contains the point but the point lies inside the
selection rectangle the gesture is a move; otherwise it starts a new
selection. -/
theorem press_classification_amended {C : Type} (rz : Raster C) (s : Display C)
    (p : QPoint) (htool : s.currentTool = Tool.none) :
    classifyPress s.selectionRect p = classifySpec anchoredRegion s.selectionRect p ∧
    mousePressEvent rz s p =
      (match classifyPress s.selectionRect p with
       | .resize h => { s with currentHandle := h, handleOffset := p - s.selectionRect.topLeft }
       | .move => { s with movingSelection := true, selectionOffset := p - s.selectionRect.topLeft }
       | .newSelection =>
           { s with selectionStarted := true, origin := p,
                    selectionRect := QRect.mkPS p QSize.defaultSize,
                    currentHandle := HandlePosition.none, movingSelection := false }) := by
  constructor
  · simp only [classifyPress, classifySpec, handleAtPoint_eq_firstMatch]
  · simp only [mousePressEvent, classifyPress, htool, reduceCtorEq, if_true, if_pos]
    split_ifs <;> rfl

/-- Claim C1 counterexample: with the selection rectangle (0,0)-(100,100)
and press point (15,15), the code resolves to a TopLeft resize (the
anchored square [0,19]x[0,19] contains the point), while the claimed
CENTERED 20-unit squares contain no handle there, which would classify
the press as a move. -/
theorem press_classification_counterexample :
    classifyPress ⟨0, 0, 100, 100⟩ ⟨15, 15⟩ = PressKind.resize HandlePosition.topLeft ∧
    classifySpec centeredRegion ⟨0, 0, 100, 100⟩ ⟨15, 15⟩ = PressKind.move ∧
    classifyPress ⟨0, 0, 100, 100⟩ ⟨15, 15⟩ ≠
      classifySpec centeredRegion ⟨0, 0, 100, 100⟩ ⟨15, 15⟩ := by
  refine ⟨by decide, by decide, by decide⟩

/-- Claim C1 witness: the amended classification at a concrete state and
point. -/
theorem press_classification_witness :
    dispSel.currentTool = Tool.none ∧
    classifyPress dispSel.selectionRect ⟨15, 15⟩ =
      classifySpec anchoredRegion dispSel.selectionRect ⟨15, 15⟩ :=
  ⟨rfl, (press_classification_amended rzN dispSel ⟨15, 15⟩ rfl).1⟩

/-- A pointer move never touches the undo stack, the shape-drawing flag
or the active tool, and (unless the pen is drawing) never touches the
annotation layer. -/
theorem mouseMove_preserves {C : Type} (rz : Raster C) (s : Display C) (p : QPoint) :
    (mouseMoveEvent rz s p).undoStack = s.undoStack ∧
    (mouseMoveEvent rz s p).shapeDrawing = s.shapeDrawing ∧
    (mouseMoveEvent rz s p).currentTool = s.currentTool ∧
    (s.currentTool ≠ Tool.pen → (mouseMoveEvent rz s p).drawingPixmap = s.drawingPixmap) := by
  simp only [mouseMoveEvent]
  split_ifs <;> simp_all

/-- mouseMove_preserves, folded over a whole list of pointer moves. -/
theorem foldMoves_preserves {C : Type} (rz : Raster C) (ps : List QPoint) :
    ∀ s : Display C,
      (ps.foldl (mouseMoveEvent rz) s).undoStack = s.undoStack ∧
      (ps.foldl (mouseMoveEvent rz) s).shapeDrawing = s.shapeDrawing ∧
      (ps.foldl (mouseMoveEvent rz) s).currentTool = s.currentTool ∧
      (s.currentTool ≠ Tool.pen →
        (ps.foldl (mouseMoveEvent rz) s).drawingPixmap = s.drawingPixmap) := by
  induction ps with
  | nil => intro s; exact ⟨rfl, rfl, rfl, fun _ => rfl⟩
  | cons p ps ih =>
      intro s
      have h1 := mouseMove_preserves rz s p
      have h2 := ih (mouseMoveEvent rz s p)
      simp only [List.foldl_cons]
      refine ⟨h2.1.trans h1.1, h2.2.1.trans h1.2.1, h2.2.2.1.trans h1.2.2.1, fun hp => ?_⟩
      exact (h2.2.2.2 (by rw [h1.2.2.1]; exact hp)).trans (h1.2.2.2 hp)

/-- A pointer release pushes one snapshot (of the current layer) exactly
when a shape preview is in progress, and none otherwise. -/
theorem mouseRelease_stack {C : Type} (rz : Raster C) (s : Display C) (q : QPoint) :
    (s.shapeDrawing = false → (mouseReleaseEvent rz s q).undoStack = s.undoStack) ∧
    (s.shapeDrawing = true →
       (mouseReleaseEvent rz s q).undoStack = s.drawingPixmap :: s.undoStack) := by
  constructor <;> intro h <;> simp [mouseReleaseEvent, saveStateForUndo, h]

/-- Claim C2 (amended): a pen gesture pushes exactly one undo snapshot,
at pointer-down; a text-session creation pushes none and a text commit
pushes exactly one; pointer moves never push; but a SHAPE gesture pushes
TWO snapshots — one at pointer-down and one at commit — both copies of
the same pre-gesture layer (the layer is unchanged in between), so one
shape gesture needs two undos. -/
theorem gesture_snapshots_amended {C : Type} (rz : Raster C) (s : Display C)
    (p0 pe : QPoint) (ps : List QPoint) :
    (s.currentTool = Tool.pen → s.shapeDrawing = false →
       (runGesture rz s p0 ps pe).undoStack = s.drawingPixmap :: s.undoStack) ∧
    (s.currentTool ≠ Tool.none → s.currentTool ≠ Tool.text → s.currentTool ≠ Tool.pen →
       (runGesture rz s p0 ps pe).undoStack =
         s.drawingPixmap :: s.drawingPixmap :: s.undoStack) ∧
    (∀ (s2 : Display C) (q : QPoint), (mouseMoveEvent rz s2 q).undoStack = s2.undoStack) ∧
    (s.currentTool = Tool.text → s.textEdit = Option.none →
       (mousePressEvent rz s p0).undoStack = s.undoStack) ∧
    (∀ te : TextState, s.textEdit = some te →
       (finalizeTextEdit rz s).undoStack = s.drawingPixmap :: s.undoStack) := by
  refine ⟨fun htool hshape => ?_, fun hn ht hp => ?_, fun s2 q => (mouseMove_preserves rz s2 q).1,
    fun htool hte => ?_, fun te hte => ?_⟩
  · have hpress : mousePressEvent rz s p0 =
        { s with undoStack := s.drawingPixmap :: s.undoStack,
                 drawing := true, lastPoint := p0, origin := p0 } := by
      simp only [mousePressEvent, htool, saveStateForUndo]
      rfl
    have hm := foldMoves_preserves rz ps (mousePressEvent rz s p0)
    have hMshape :
        (List.foldl (mouseMoveEvent rz) (mousePressEvent rz s p0) ps).shapeDrawing = false := by
      rw [hm.2.1, hpress]; exact hshape
    have hrel := (mouseRelease_stack rz
      (List.foldl (mouseMoveEvent rz) (mousePressEvent rz s p0) ps) pe).1 hMshape
    calc (runGesture rz s p0 ps pe).undoStack
        = (List.foldl (mouseMoveEvent rz) (mousePressEvent rz s p0) ps).undoStack := hrel
      _ = (mousePressEvent rz s p0).undoStack := hm.1
      _ = s.drawingPixmap :: s.undoStack := by rw [hpress]
  · have hpress : mousePressEvent rz s p0 =
        { s with undoStack := s.drawingPixmap :: s.undoStack,
                 drawing := true, lastPoint := p0, origin := p0,
                 shapeDrawing := true,
                 currentShapeRect := QRect.mkPS p0 QSize.defaultSize } := by
      simp only [mousePressEvent, saveStateForUndo]
      rw [if_neg hn, if_neg ht]
      split_ifs
      rfl
    have hm := foldMoves_preserves rz ps (mousePressEvent rz s p0)
    have hMshape :
        (List.foldl (mouseMoveEvent rz) (mousePressEvent rz s p0) ps).shapeDrawing = true := by
      rw [hm.2.1, hpress]
    have hMpix :
        (List.foldl (mouseMoveEvent rz) (mousePressEvent rz s p0) ps).drawingPixmap
          = s.drawingPixmap := by
      have h4 := hm.2.2.2 (by rw [hpress]; exact hp)
      rw [h4, hpress]
    have hrel := (mouseRelease_stack rz
      (List.foldl (mouseMoveEvent rz) (mousePressEvent rz s p0) ps) pe).2 hMshape
    calc (runGesture rz s p0 ps pe).undoStack
        = (List.foldl (mouseMoveEvent rz) (mousePressEvent rz s p0) ps).drawingPixmap ::
            (List.foldl (mouseMoveEvent rz) (mousePressEvent rz s p0) ps).undoStack := hrel
      _ = s.drawingPixmap :: (mousePressEvent rz s p0).undoStack := by rw [hMpix, hm.1]
      _ = s.drawingPixmap :: s.drawingPixmap :: s.undoStack := by rw [hpress]
  · simp [mousePressEvent, htool, hte]
  · simp [finalizeTextEdit, hte, saveStateForUndo]

/-- Claim C2 counterexample: a rectangle-shape gesture (press at (0,0),
one move to (5,5), release) on a state with an empty undo stack leaves
TWO snapshots on the stack, not exactly one. -/
theorem gesture_snapshots_counterexample :
    (runGesture rzN dispRect ⟨0, 0⟩ [⟨5, 5⟩] ⟨9, 9⟩).undoStack.length = 2 ∧
    (runGesture rzN dispRect ⟨0, 0⟩ [⟨5, 5⟩] ⟨9, 9⟩).undoStack.length ≠ 1 := by
  refine ⟨by decide, by decide⟩

/-- Claim C2 witness: the amended statement at a concrete pen gesture
with two pointer moves. -/
theorem gesture_snapshots_witness :
    dispPen.currentTool = Tool.pen ∧ dispPen.shapeDrawing = false ∧
    (runGesture rzN dispPen ⟨0, 0⟩ [⟨1, 1⟩, ⟨2, 2⟩] ⟨3, 3⟩).undoStack =
      dispPen.drawingPixmap :: dispPen.undoStack :=
  ⟨rfl, rfl, (gesture_snapshots_amended rzN dispPen ⟨0, 0⟩ ⟨3, 3⟩ [⟨1, 1⟩, ⟨2, 2⟩]).1 rfl rfl⟩

/-- Claim C4: the undo stack is strict LIFO: push copies the current
annotation layer onto the stack; undo on a non-empty stack pops the top
snapshot into the layer; pushing (as S1), mutating the layer to A,
pushing again (as S2), mutating to B, then undoing twice restores the
pre-S1 layer and stack; undo on an empty stack changes nothing. -/
theorem undo_stack_lifo {C : Type} (s : Display C) (A B : Pixmap C) :
    (saveStateForUndo s).undoStack = s.drawingPixmap :: s.undoStack ∧
    (∀ (top : Pixmap C) (rest : List (Pixmap C)), s.undoStack = top :: rest →
       undo s = { s with drawingPixmap := top, undoStack := rest }) ∧
    (s.undoStack = [] → undo s = s) ∧
    (undo { saveStateForUndo { saveStateForUndo s with drawingPixmap := A }
            with drawingPixmap := B }).drawingPixmap = A ∧
    (undo (undo { saveStateForUndo { saveStateForUndo s with drawingPixmap := A }
            with drawingPixmap := B })).drawingPixmap = s.drawingPixmap ∧
    (undo (undo { saveStateForUndo { saveStateForUndo s with drawingPixmap := A }
            with drawingPixmap := B })).undoStack = s.undoStack := by
  refine ⟨rfl, fun top rest h => ?_, fun h => ?_, rfl, rfl, rfl⟩
  · simp only [undo, h]
  · simp only [undo, h]

/-- Claim C4 witness: the empty-stack no-op branch at the concrete
initial state. -/
theorem undo_stack_lifo_witness :
    baseDisplay.undoStack = [] ∧ undo baseDisplay = baseDisplay :=
  ⟨rfl, (undo_stack_lifo baseDisplay pxN pxN).2.2.1 rfl⟩

/-- Claim C10: undo modifies only the annotation layer and the undo
stack: the selection rectangle, the captured image, the active tool, the
current color, the stroke width, the font (and every other member) are
unchanged, whether or not the stack is empty; the stack is popped (tail)
and the layer receives the old top when there is one. -/
theorem undo_frame_effect {C : Type} (s : Display C) :
    (undo s).selectionRect = s.selectionRect ∧
    (undo s).originalPixmap = s.originalPixmap ∧
    (undo s).currentTool = s.currentTool ∧
    (undo s).currentColor = s.currentColor ∧
    (undo s).borderWidth = s.borderWidth ∧
    (undo s).currentFont = s.currentFont ∧
    (undo s).textEdit = s.textEdit ∧
    (undo s).selectionStarted = s.selectionStarted ∧
    (undo s).movingSelection = s.movingSelection ∧
    (undo s).currentHandle = s.currentHandle ∧
    (undo s).shapeDrawing = s.shapeDrawing ∧
    (undo s).isClosed = s.isClosed ∧
    (undo s).undoStack = s.undoStack.tail ∧
    (undo s).drawingPixmap = s.undoStack.headD s.drawingPixmap := by
  rcases hst : s.undoStack with _ | ⟨top, rest⟩ <;> simp [undo, hst]

/-- Claim C3: on a save request, a non-empty chosen path persists ONLY
the original captured pixmap (not the annotated composite) to that path
and closes the display; an empty (cancelled) path saves nothing and
leaves the state unchanged (display stays open). -/
theorem save_requested_behavior {C : Type} (s : Display C) (filePath : String) :
    (filePath ≠ "" →
       onSaveRequested s filePath =
         ({ s with isClosed := true }, some (filePath, s.originalPixmap))) ∧
    (filePath = "" → onSaveRequested s filePath = (s, none)) := by
  constructor <;> intro h <;> simp [onSaveRequested, h]

/-- Claim C3 witness: both branches at concrete paths. -/
theorem save_requested_witness :
    ("shot.png" ≠ "" ∧
       onSaveRequested baseDisplay "shot.png" =
         ({ baseDisplay with isClosed := true }, some ("shot.png", baseDisplay.originalPixmap))) ∧
    onSaveRequested baseDisplay "" = (baseDisplay, none) :=
  ⟨⟨by decide, (save_requested_behavior baseDisplay "shot.png").1 (by decide)⟩,
   (save_requested_behavior baseDisplay "").2 rfl⟩

/-- Claim C5 (amended): copy-to-clipboard composites the annotation layer
over the captured image and closes the display; when the selection
rectangle is valid the clipboard receives exactly the region of the
composite cropped to it — of size width x height, which for the
corner-specified rectangle (10,10)-(60,40) is 51x31 (Qt rectangles
include both corners), not 50x30 — otherwise the full composite. -/
theorem copy_crops_composite {C : Type} (blend : C → C → C) (fill : C) (s : Display C) :
    (copySelectionToClipboard blend fill s).1.isClosed = true ∧
    (s.selectionRect.isValid = true →
       (copySelectionToClipboard blend fill s).2.w = s.selectionRect.width ∧
       (copySelectionToClipboard blend fill s).2.h = s.selectionRect.height ∧
       (∀ x y : Int,
          0 ≤ s.selectionRect.x1 + x → s.selectionRect.x1 + x < s.originalPixmap.w →
          0 ≤ s.selectionRect.y1 + y → s.selectionRect.y1 + y < s.originalPixmap.h →
          (copySelectionToClipboard blend fill s).2.pix x y =
            (compositeAt00 blend s.originalPixmap s.drawingPixmap).pix
              (s.selectionRect.x1 + x) (s.selectionRect.y1 + y))) ∧
    (s.selectionRect.isValid = false →
       (copySelectionToClipboard blend fill s).2 =
         compositeAt00 blend s.originalPixmap s.drawingPixmap) := by
  have hgood : ∀ hv : s.selectionRect.isValid = true,
      copySelectionToClipboard blend fill s =
        ({ s with isClosed := true },
         pixmapCopy fill (compositeAt00 blend s.originalPixmap s.drawingPixmap)
           s.selectionRect) := by
    intro hv
    simp [copySelectionToClipboard, hv]
  refine ⟨?_, fun hv => ?_, fun hv => ?_⟩
  · simp only [copySelectionToClipboard]
    split_ifs <;> rfl
  · refine ⟨by rw [hgood hv]; rfl, by rw [hgood hv]; rfl, fun x y hx1 hx2 hy1 hy2 => ?_⟩
    rw [hgood hv]
    show (pixmapCopy fill (compositeAt00 blend s.originalPixmap s.drawingPixmap)
        s.selectionRect).pix x y = _
    simp only [pixmapCopy]
    rw [if_pos]
    exact ⟨hx1, hx2, hy1, hy2⟩
  · simp [copySelectionToClipboard, hv]

/-- Claim C5 counterexample: for the selection rectangle dragged from
(10,10) to (60,40), the clipboard pixmap is 51x31, not the claimed
50x30. -/
theorem copy_crop_size_counterexample :
    (copySelectionToClipboard (fun a _ => a) 0 dispCopy).2.w = 51 ∧
    (copySelectionToClipboard (fun a _ => a) 0 dispCopy).2.h = 31 ∧
    ¬((copySelectionToClipboard (fun a _ => a) 0 dispCopy).2.w = 50 ∧
      (copySelectionToClipboard (fun a _ => a) 0 dispCopy).2.h = 30) := by
  refine ⟨by decide, by decide, by decide⟩

/-- Claim C5 witness: the amended statement at the concrete selection
(10,10)-(60,40). -/
theorem copy_crops_composite_witness :
    dispCopy.selectionRect.isValid = true ∧
    (copySelectionToClipboard (fun a _ => a) 0 dispCopy).1.isClosed = true ∧
    (copySelectionToClipboard (fun a _ => a) 0 dispCopy).2.w =
      dispCopy.selectionRect.width :=
  ⟨rfl, (copy_crops_composite (fun a _ => a) 0 dispCopy).1,
   ((copy_crops_composite (fun a _ => a) 0 dispCopy).2.1 rfl).1⟩

/-- The finalizeTextEdit loop draws exactly the linePositions commands,
folded in order into the layer. -/
theorem rasterizeLines_eq_fold {C : Type} (rz : Raster C) (f : Font) (col : C) :
    ∀ (lines : List String) (pos : QPoint) (px : Pixmap C),
      rasterizeLines rz f col lines pos px =
        (linePositions pos f.height lines).foldl
          (fun acc pc => rz.drawTextLine f col pc.1 pc.2 acc) px
  | [], _, _ => rfl
  | line :: rest, pos, px => by
      simp only [rasterizeLines, linePositions, List.foldl_cons]
      exact rasterizeLines_eq_fold rz f col rest _ _

/-- The i-th linePositions command sits at x unchanged and
y = start.y + i * lineHeight. -/
theorem linePositions_get :
    ∀ (lines : List String) (p : QPoint) (lh : Int) (i : Nat) (line : String),
      lines.get? i = some line →
      (linePositions p lh lines).get? i = some (⟨p.x, p.y + (i : Int) * lh⟩, line)
  | [], _, _, i, line => by simp
  | l :: rest, p, lh, 0, line => by
      simp [linePositions]
  | l :: rest, p, lh, i + 1, line => by
      intro hg
      simp only [List.get?] at hg
      have ih := linePositions_get rest ⟨p.x, p.y + lh⟩ lh i line hg
      simp only [linePositions, List.get?, ih, Option.some.injEq, Prod.mk.injEq,
        QPoint.mk.injEq, true_and, and_true]
      push_cast
      ring

/-- Claim C6: while a text session is open, a second click and Escape
take the same finalize path: an undo snapshot is pushed, each line of
the session text is rasterized starting at the anchor with the first
baseline at anchor.y + ascent and the y position advanced by one line
height per subsequent line, using the session's font and the current
color, and the session is destroyed (commit, not discard). -/
theorem text_finalize_paths {C : Type} (rz : Raster C) (s : Display C) (te : TextState)
    (htool : s.currentTool = Tool.text) (hte : s.textEdit = some te) (p : QPoint) :
    mousePressEvent rz s p = finalizeTextEdit rz s ∧
    keyPressEscape rz s = finalizeTextEdit rz s ∧
    (finalizeTextEdit rz s).textEdit = none ∧
    (finalizeTextEdit rz s).undoStack = s.drawingPixmap :: s.undoStack ∧
    (finalizeTextEdit rz s).drawingPixmap =
      (linePositions ⟨s.textEditPosition.x, s.textEditPosition.y + te.font.ascent⟩
          te.font.height (te.content.splitOn "\n")).foldl
        (fun acc pc => rz.drawTextLine te.font s.currentColor pc.1 pc.2 acc)
        s.drawingPixmap ∧
    (∀ (i : Nat) (line : String), (te.content.splitOn "\n").get? i = some line →
       (linePositions ⟨s.textEditPosition.x, s.textEditPosition.y + te.font.ascent⟩
           te.font.height (te.content.splitOn "\n")).get? i =
         some (⟨s.textEditPosition.x,
                s.textEditPosition.y + te.font.ascent + (i : Int) * te.font.height⟩, line)) := by
  refine ⟨?_, ?_, ?_, ?_, ?_, ?_⟩
  · simp [mousePressEvent, htool, hte]
  · simp [keyPressEscape, htool, hte]
  · simp [finalizeTextEdit, hte]
  · simp [finalizeTextEdit, hte, saveStateForUndo]
  · simp only [finalizeTextEdit, hte, saveStateForUndo]
    exact rasterizeLines_eq_fold rz te.font s.currentColor _ _ _
  · intro i line hg
    exact linePositions_get _ _ _ i line hg

/-- Offsetting by L along direction θ covers distance ∣L∣. -/
theorem cos_sin_offset_norm (θ L : ℝ) :
    Real.sqrt ((Real.cos θ * L) ^ 2 + (Real.sin θ * L) ^ 2) = |L| := by
  rw [show (Real.cos θ * L) ^ 2 + (Real.sin θ * L) ^ 2
        = (Real.cos θ ^ 2 + Real.sin θ ^ 2) * L ^ 2 by ring,
    Real.cos_sq_add_sin_sq, one_mul, Real.sqrt_sq_eq_abs]

/-- Each arrowhead wing point lies exactly at head-length distance
(2 x borderWidth) from the endpoint. -/
theorem arrow_wing_dist (sP eP : QPoint) (bw : Int) :
    dist2 (drawArrowWings sP eP bw).1 ((eP.x : ℝ), (eP.y : ℝ)) = |(bw : ℝ) * 2| ∧
    dist2 (drawArrowWings sP eP bw).2 ((eP.x : ℝ), (eP.y : ℝ)) = |(bw : ℝ) * 2| := by
  constructor <;>
  · simp only [drawArrowWings, dist2, add_sub_cancel_left]
    exact cos_sin_offset_norm _ _

/-- atan2 of (0, x) with x negative is pi: the reversed direction of a
rightward horizontal line points along the negative x axis. -/
theorem atan2_zero_neg (x : ℝ) (hx : x < 0) : atan2 0 x = Real.pi := by
  unfold atan2
  rw [show (⟨x, 0⟩ : ℂ) = ((x : ℝ) : ℂ) from rfl]
  exact Complex.arg_ofReal_of_neg hx

/-- For the horizontal line (0,0) to (100,0) with border width 5, the
wing points evaluate to (100 - 5 sqrt 3, ∓5). -/
theorem arrow_wings_concrete :
    drawArrowWings ⟨0, 0⟩ ⟨100, 0⟩ 5 =
      ((100 - 5 * Real.sqrt 3, -5), (100 - 5 * Real.sqrt 3, 5)) := by
  simp only [drawArrowWings]
  push_cast
  norm_num
  rw [atan2_zero_neg (-100) (by norm_num)]
  simp only [Real.cos_add, Real.sin_add, Real.cos_sub, Real.sin_sub,
    Real.cos_pi, Real.sin_pi, Real.cos_pi_div_six, Real.sin_pi_div_six,
    Prod.mk.injEq]
  refine ⟨⟨by ring, by ring⟩, ⟨by ring, by ring⟩⟩

/-- Claim C8: arrow commit computes the triangular arrowhead from the
reversed line direction (atan2 of the point delta), with head length
2 x stroke width and half-angle 30 degrees (pi/6); each wing is the
endpoint offset by the head length in direction angle ± half-angle, so
it lies exactly at head-length distance from the endpoint.  For the
horizontal line (0,0)-(100,0) with stroke width 5 the reversed direction
is pi, and the wings sit 10 units from the endpoint at pi ± pi/6, at
coordinates (100 - 5 sqrt 3, ∓5). -/
theorem arrowhead_geometry :
    (∀ (sP eP : QPoint) (bw : Int),
       drawArrowWings sP eP bw =
         (((eP.x : ℝ) + Real.cos (atan2 ((sP.y : ℝ) - (eP.y : ℝ))
              ((sP.x : ℝ) - (eP.x : ℝ)) + Real.pi / 6) * ((bw : ℝ) * 2),
           (eP.y : ℝ) + Real.sin (atan2 ((sP.y : ℝ) - (eP.y : ℝ))
              ((sP.x : ℝ) - (eP.x : ℝ)) + Real.pi / 6) * ((bw : ℝ) * 2)),
          ((eP.x : ℝ) + Real.cos (atan2 ((sP.y : ℝ) - (eP.y : ℝ))
              ((sP.x : ℝ) - (eP.x : ℝ)) - Real.pi / 6) * ((bw : ℝ) * 2),
           (eP.y : ℝ) + Real.sin (atan2 ((sP.y : ℝ) - (eP.y : ℝ))
              ((sP.x : ℝ) - (eP.x : ℝ)) - Real.pi / 6) * ((bw : ℝ) * 2)))) ∧
    (∀ (sP eP : QPoint) (bw : Int),
       dist2 (drawArrowWings sP eP bw).1 ((eP.x : ℝ), (eP.y : ℝ)) = |(bw : ℝ) * 2| ∧
       dist2 (drawArrowWings sP eP bw).2 ((eP.x : ℝ), (eP.y : ℝ)) = |(bw : ℝ) * 2|) ∧
    atan2 0 (-100) = Real.pi ∧
    drawArrowWings ⟨0, 0⟩ ⟨100, 0⟩ 5 =
      ((100 - 5 * Real.sqrt 3, -5), (100 - 5 * Real.sqrt 3, 5)) ∧
    dist2 (drawArrowWings ⟨0, 0⟩ ⟨100, 0⟩ 5).1 (100, 0) = 10 ∧
    dist2 (drawArrowWings ⟨0, 0⟩ ⟨100, 0⟩ 5).2 (100, 0) = 10 := by
  refine ⟨fun sP eP bw => rfl, arrow_wing_dist, atan2_zero_neg (-100) (by norm_num),
    arrow_wings_concrete, ?_, ?_⟩
  · have h := (arrow_wing_dist ⟨0, 0⟩ ⟨100, 0⟩ 5).1
    push_cast at h
    norm_num at h
    exact h
  · have h := (arrow_wing_dist ⟨0, 0⟩ ⟨100, 0⟩ 5).2
    push_cast at h
    norm_num at h
    exact h

/-- Claim C6 witness: finalize at the concrete open session "Hi"
anchored at (50, 50). -/
theorem text_finalize_witness :
    dispText.currentTool = Tool.text ∧ dispText.textEdit = some ⟨fontN, "Hi"⟩ ∧
    (finalizeTextEdit rzN dispText).textEdit = none ∧
    (finalizeTextEdit rzN dispText).undoStack =
      dispText.drawingPixmap :: dispText.undoStack :=
  ⟨rfl, rfl, (text_finalize_paths rzN dispText ⟨fontN, "Hi"⟩ rfl rfl ⟨0, 0⟩).2.2.1,
   (text_finalize_paths rzN dispText ⟨fontN, "Hi"⟩ rfl rfl ⟨0, 0⟩).2.2.2.1⟩

end ScreenMe
